import Mathlib

/-!
Shallow embedding of the WebRTC peer-connection coordinator in
`src/src/lib/webrtc.ts` (class `WebRTCManager`).  Pure state passing models
the single-threaded event-driven class: each handler maps a `ManagerState`
and a message to a new state together with a list of observable `Effect`s
(messages sent on the signaling channel, timers scheduled, peer-connection
closures, track substitutions).
-/

/-- The signaling states of an `RTCPeerConnection` (`peer.signalingState`). -/
inductive SignalingState where
  | stable
  | haveLocalOffer
  | haveRemoteOffer
  | haveLocalPranswer
  | haveRemotePranswer
  | closed
deriving DecidableEq, Repr

/-- A local media stream: lists of track identifiers
(`localStream.getVideoTracks()` / `getAudioTracks()`). -/
structure MediaStreamM where
  videoTracks : List Nat
  audioTracks : List Nat
deriving DecidableEq, Repr

/-- One entry of the `peers` map: the `PeerConnection` interface plus the
observable state of its `RTCPeerConnection` (signaling state and the track
currently held by the video-kind `RTCRtpSender`, `none` when the connection
has no video sender). -/
structure PeerRec where
  peerId : String
  name : String
  signalingState : SignalingState
  videoSenderTrack : Option Nat
deriving DecidableEq, Repr

/-- Association-list registry modelling `Map<string, PeerConnection>`. -/
abbrev Registry := List (String × PeerRec)

/-- `Map.get`. -/
def regGet : Registry → String → Option PeerRec
  | [], _ => none
  | p :: ps, k => if p.1 = k then some p.2 else regGet ps k

/-- `Map.has`. -/
def regHas (r : Registry) (k : String) : Bool :=
  (regGet r k).isSome

/-- `Map.set`: replace the binding in place when present, append otherwise
(insertion order, as a JS `Map` keeps it). -/
def regSet : Registry → String → PeerRec → Registry
  | [], k, v => [(k, v)]
  | p :: ps, k, v => if p.1 = k then (k, v) :: ps else p :: regSet ps k v

/-- `Map.delete` (a `Map` holds at most one binding per key, so removing
every binding of `k` from the association list models it). -/
def regDelete (r : Registry) (k : String) : Registry :=
  r.filter (fun p => ¬ p.1 = k)

/-- Signaling messages broadcast by the manager (`signalingChannel.send`). -/
inductive OutMsg where
  | offer (fromId toId name : String)
  | answer (fromId toId name : String)
  | iceCandidate (fromId toId : String)
  | userJoined (participantId name : String)
  | userLeft (participantId : String)
  | handRaised (participantId name : String) (raised : Bool)
  | mediaStateChanged (participantId : String) (audio video : Bool)
deriving DecidableEq, Repr

/-- Observable side effects of a handler invocation. -/
inductive Effect where
  | send (m : OutMsg)
  | closePeer (peerId : String)
  | notifyPeerLeft (peerId : String)
  | scheduleRetry (peerId name : String) (delayMs : Nat)
  | replaceVideoTrack (peerId : String) (track : Nat)
  | trackPresence
  | untrackPresence
  | clearHeartbeatTimer
  | clearParticipantCheckTimer
  | stopLocalTrack (track : Nat)
  | unsubscribeSignaling
  | unsubscribePresence
  | scheduleParticipantCheck (delayMs : Nat)
deriving DecidableEq, Repr

/-- The mutable fields of `WebRTCManager` that the verified handlers touch. -/
structure ManagerState where
  participantId : String
  participantName : String
  peers : Registry
  reconnectAttempts : Nat
  isInitialized : Bool
  heartbeatActive : Bool
  participantCheckActive : Bool
  signalingSubscribed : Bool
  presenceSubscribed : Bool
  localStream : Option MediaStreamM
  backgroundBlurEnabled : Bool
deriving DecidableEq, Repr

/-- `maxReconnectAttempts = 5`. -/
def maxReconnectAttempts : Nat := 5

/-- Incoming Offer payload (`{ from, to, offer, name, timestamp }`). -/
structure OfferMsg where
  fromId : String
  toId : String
  name : String
deriving DecidableEq, Repr

/-- Incoming Answer payload. -/
structure AnswerMsg where
  fromId : String
  toId : String
  name : String
deriving DecidableEq, Repr

/-- Incoming IceCandidate payload. -/
structure IceMsg where
  fromId : String
  toId : String
deriving DecidableEq, Repr

/-- Lexicographic string comparison, as used by the tie-break
`this.participantId < data.from` (computed on the character lists so that it
evaluates; `strLt_iff` below shows it agrees with the `String` order). -/
def strLt (a b : String) : Bool := decide (a.data < b.data)

/-- `createPeerConnection(peerId, name, isInitiator)`: builds a fresh
`RTCPeerConnection` (signaling state `stable`), attaches the current local
tracks (so the video sender holds the local video track when one exists),
stores the record, and when `isInitiator` creates a local offer
(state moves to `have-local-offer`) and broadcasts it. -/
def createPeerConnection (s : ManagerState) (peerId name : String)
    (isInitiator : Bool) : ManagerState × List Effect :=
  let videoSender : Option Nat :=
    match s.localStream with
    | some ls => ls.videoTracks.head?
    | none => none
  let rec0 : PeerRec :=
    { peerId := peerId, name := name, signalingState := .stable,
      videoSenderTrack := videoSender }
  if isInitiator then
    let rec1 := { rec0 with signalingState := .haveLocalOffer }
    ({ s with peers := regSet s.peers peerId rec1 },
     [Effect.send (OutMsg.offer s.participantId peerId s.participantName)])
  else
    ({ s with peers := regSet s.peers peerId rec0 }, [])

/-- `handleUserJoined`: ignore self and already-known peers, otherwise create
an initiating connection. -/
def handleUserJoined (s : ManagerState) (pid name : String) :
    ManagerState × List Effect :=
  if pid = s.participantId then (s, [])
  else if regHas s.peers pid then (s, [])
  else createPeerConnection s pid name true

/-- The tail of `handleOffer` after the glare branch: with the record `pc`
present for `m.fromId`, apply the remote description only in
`stable`/`have-remote-offer` (then answer: the connection ends in `stable`
after `setLocalDescription(answer)` and the answer is broadcast); in any
other state only log — the record is left in the registry. -/
def respondToOffer (s : ManagerState) (m : OfferMsg) (pc : PeerRec)
    (eff : List Effect) : ManagerState × List Effect :=
  if pc.signalingState = .stable ∨ pc.signalingState = .haveRemoteOffer then
    let pc1 := { pc with signalingState := .stable }
    ({ s with peers := regSet s.peers m.fromId pc1 },
     eff ++ [Effect.send (OutMsg.answer s.participantId m.fromId s.participantName)])
  else
    (s, eff)

/-- The no-record arm of `handleOffer`: create a non-initiating connection
for the sender, then run the state-gated answer logic on the fresh record. -/
def offerViaFreshRecord (s : ManagerState) (m : OfferMsg)
    (eff : List Effect) : ManagerState × List Effect :=
  let (s1, e1) := createPeerConnection s m.fromId m.name false
  match regGet s1.peers m.fromId with
  | some pc => respondToOffer s1 m pc (eff ++ e1)
  | none => (s1, eff ++ e1)

/-- `handleOffer`: drop messages not addressed to self; on glare (existing
record in `have-local-offer`) the lexicographically smaller id ignores the
offer, the larger closes its own attempt and accepts; otherwise create or
reuse the record and answer subject to the state gate. -/
def handleOffer (s : ManagerState) (m : OfferMsg) : ManagerState × List Effect :=
  if ¬ m.toId = s.participantId then (s, [])
  else
    match regGet s.peers m.fromId with
    | some pc =>
      if pc.signalingState = .haveLocalOffer then
        if strLt s.participantId m.fromId then
          (s, [])
        else
          let s1 := { s with peers := regDelete s.peers m.fromId }
          offerViaFreshRecord s1 m [Effect.closePeer m.fromId]
      else
        respondToOffer s m pc []
    | none => offerViaFreshRecord s m []

/-- `handleAnswer`: drop messages not addressed to self; apply the remote
answer only when the record is in `have-local-offer` (moving to `stable`);
otherwise log and leave everything unchanged. -/
def handleAnswer (s : ManagerState) (m : AnswerMsg) : ManagerState × List Effect :=
  if ¬ m.toId = s.participantId then (s, [])
  else
    match regGet s.peers m.fromId with
    | some pc =>
      if pc.signalingState = .haveLocalOffer then
        let pc1 := { pc with signalingState := SignalingState.stable }
        ({ s with peers := regSet s.peers m.fromId pc1 }, [])
      else (s, [])
    | none => (s, [])

/-- `handleIceCandidate`: drop messages not addressed to self; when a record
exists the candidate is applied to it (no state or registry change in the
embedding; failures are caught and logged). -/
def handleIceCandidate (s : ManagerState) (m : IceMsg) : ManagerState × List Effect :=
  if ¬ m.toId = s.participantId then (s, [])
  else (s, [])

/-- `handleConnectionFailure(peerId, name)`: close and drop the failed
record (notifying the peer-left observer), then if the shared retry counter
is below `maxReconnectAttempts`, increment it and schedule a fresh
initiating attempt after `2000 * attempts` milliseconds. -/
def handleConnectionFailure (s : ManagerState) (peerId name : String) :
    ManagerState × List Effect :=
  let (s1, e1) :=
    match regGet s.peers peerId with
    | some _ =>
      ({ s with peers := regDelete s.peers peerId },
       [Effect.closePeer peerId, Effect.notifyPeerLeft peerId])
    | none => (s, [])
  if s1.reconnectAttempts < maxReconnectAttempts then
    let n := s1.reconnectAttempts + 1
    ({ s1 with reconnectAttempts := n },
     e1 ++ [Effect.scheduleRetry peerId name (2000 * n)])
  else
    (s1, e1)

/-- The `connectionState === 'connected'` arm of `onconnectionstatechange`:
reset the retry counter to zero. -/
def handleConnected (s : ManagerState) : ManagerState :=
  { s with reconnectAttempts := 0 }

/-- `handleUserLeft`: close and drop the record when present, notifying the
peer-left observer. -/
def handleUserLeft (s : ManagerState) (pid : String) :
    ManagerState × List Effect :=
  match regGet s.peers pid with
  | some _ =>
    ({ s with peers := regDelete s.peers pid },
     [Effect.closePeer pid, Effect.notifyPeerLeft pid])
  | none => (s, [])

/-- One row of the roster store query (`participants` table): id and name. -/
structure RosterEntry where
  id : String
  name : String
deriving DecidableEq, Repr

/-- `checkForNewParticipants`: for each roster row whose NAME differs from
the local participant name and whose id is not yet in the registry, raise a
join. -/
def checkForNewParticipants (s : ManagerState) (roster : List RosterEntry) :
    ManagerState × List Effect :=
  roster.foldl
    (fun acc e =>
      if ¬ e.name = acc.1.participantName ∧ ¬ regHas acc.1.peers e.id then
        let (s1, e1) := handleUserJoined acc.1 e.id e.name
        (s1, acc.2 ++ e1)
      else acc)
    (s, [])

/-- One presence record as delivered by a presence sync snapshot. -/
structure PresenceEntry where
  participantId : String
  name : String
deriving DecidableEq, Repr

/-- `handlePresenceSync`: for each presence entry whose PARTICIPANT ID
differs from the local id and is not yet in the registry, raise a join. -/
def handlePresenceSync (s : ManagerState) (entries : List PresenceEntry) :
    ManagerState × List Effect :=
  entries.foldl
    (fun acc e =>
      if ¬ e.participantId = s.participantId ∧
          ¬ regHas acc.1.peers e.participantId then
        let (s1, e1) := handleUserJoined acc.1 e.participantId e.name
        (s1, acc.2 ++ e1)
      else acc)
    (s, [])

/-- `joinMeeting`: a one-shot guarded by `isInitialized`; the first call
tracks presence, broadcasts `user-joined`, and schedules a roster check
after one second; later calls return immediately. The flag is never reset
elsewhere. -/
def joinMeeting (s : ManagerState) : ManagerState × List Effect :=
  if s.isInitialized then (s, [])
  else
    ({ s with isInitialized := true },
     [Effect.trackPresence,
      Effect.send (OutMsg.userJoined s.participantId s.participantName),
      Effect.scheduleParticipantCheck 1000])

/-- `leaveMeeting`: clear both timers, untrack presence, broadcast
`user-left`, close every record, clear the registry, stop local tracks, and
unsubscribe both channels.  Every step is total (clearing an already-cleared
timer, closing zero records and re-unsubscribing are no-ops), so the whole
operation is safe to invoke repeatedly. -/
def leaveMeeting (s : ManagerState) : ManagerState × List Effect :=
  let timerEffs :=
    (if s.heartbeatActive then [Effect.clearHeartbeatTimer] else []) ++
    (if s.participantCheckActive then [Effect.clearParticipantCheckTimer] else [])
  let closeEffs := s.peers.map (fun p => Effect.closePeer p.1)
  let stopEffs :=
    match s.localStream with
    | some ls => (ls.videoTracks ++ ls.audioTracks).map Effect.stopLocalTrack
    | none => []
  ({ s with
      heartbeatActive := false,
      participantCheckActive := false,
      peers := [],
      signalingSubscribed := false,
      presenceSubscribed := false },
   timerEffs ++ [Effect.untrackPresence,
                 Effect.send (OutMsg.userLeft s.participantId)] ++
   closeEffs ++ stopEffs ++
   [Effect.unsubscribeSignaling, Effect.unsubscribePresence])

/-- One iteration of `this.peers.forEach(({ peer }) => ...)` in the track
substitution helpers: when the connection has a video-kind sender, call
`sender.replaceTrack(t)` on it. -/
def replaceVideoSender (t : Nat) (p : String × PeerRec) :
    (String × PeerRec) × List Effect :=
  match p.2.videoSenderTrack with
  | some _ =>
    ((p.1, { p.2 with videoSenderTrack := some t }),
     [Effect.replaceVideoTrack p.1 t])
  | none => (p, [])

/-- `replaceTrack(t)` across the whole registry, returning the updated
registry and the substitutions performed. -/
def replaceAllVideoSenders (r : Registry) (t : Nat) : Registry × List Effect :=
  (r.map (fun p => (replaceVideoSender t p).1),
   (r.map (fun p => (replaceVideoSender t p).2)).flatten)

/-- `startScreenShare`: having captured the display stream, replace the
track held by the video sender of every attached connection with the screen
track. No registry entry is created or removed, no signaling state changes,
and no signaling message is sent. -/
def startScreenShare (s : ManagerState) (screenTrack : Nat) :
    ManagerState × List Effect :=
  let r := replaceAllVideoSenders s.peers screenTrack
  ({ s with peers := r.1 }, r.2)

/-- The `videoTrack.onended` handler installed by `startScreenShare`: when
the local stream still exists and has a camera video track, swap it back
into every connection's video sender. -/
def screenShareEnded (s : ManagerState) : ManagerState × List Effect :=
  match s.localStream with
  | some ls =>
    match ls.videoTracks.head? with
    | some cam =>
      let r := replaceAllVideoSenders s.peers cam
      ({ s with peers := r.1 }, r.2)
    | none => (s, [])
  | none => (s, [])

/-- `applyBackgroundBlur` (support present, happy path): substitute the
canvas-processed track for the outgoing video track on every connection and
in the local stream. -/
def applyBackgroundBlur (s : ManagerState) (processedTrack : Nat) :
    ManagerState × List Effect :=
  match s.localStream with
  | some ls =>
    match ls.videoTracks.head? with
    | some cam =>
      let r := replaceAllVideoSenders s.peers processedTrack
      let ls1 : MediaStreamM :=
        { ls with videoTracks :=
            (ls.videoTracks.filter (fun t => ¬ t = cam)) ++ [processedTrack] }
      ({ s with peers := r.1, localStream := some ls1 }, r.2)
    | none => (s, [])
  | none => (s, [])

/-- `removeBackgroundBlur`: reacquire a clean capture (fresh camera track)
and substitute it back on every connection and in the local stream. -/
def removeBackgroundBlur (s : ManagerState) (freshTrack : Nat) :
    ManagerState × List Effect :=
  let r := replaceAllVideoSenders s.peers freshTrack
  match s.localStream with
  | some ls =>
    let stopped := ls.videoTracks.map Effect.stopLocalTrack
    let ls1 : MediaStreamM :=
      { ls with videoTracks := (ls.videoTracks.drop 1) ++ [freshTrack] }
    ({ s with peers := r.1, localStream := some ls1 }, r.2 ++ stopped)
  | none => ({ s with peers := r.1 }, r.2)

/-- `toggleBackgroundBlur(enabled)`: record the flag; when a local stream
with a video track is present, apply or remove the blur substitution. -/
def toggleBackgroundBlur (s : ManagerState) (enabled : Bool)
    (newTrack : Nat) : ManagerState × List Effect :=
  let s0 := { s with backgroundBlurEnabled := enabled }
  match s0.localStream with
  | some ls =>
    if ls.videoTracks.length > 0 then
      if enabled then applyBackgroundBlur s0 newTrack
      else removeBackgroundBlur s0 newTrack
    else (s0, [])
  | none => (s0, [])

/-- `getConnectionStats`: iterate over the registry querying each peer's
transport statistics; a per-peer failure (`query pid = none`) is caught and
that entry omitted, never aborting the loop. -/
def getConnectionStats (s : ManagerState) (query : String → Option Nat) :
    List (String × Nat) :=
  s.peers.foldl
    (fun acc p =>
      match query p.1 with
      | some report => acc ++ [(p.1, report)]
      | none => acc)
    []

/-- Record builder for concrete examples. -/
def mkPeer (pid nm : String) (st : SignalingState) (tr : Option Nat) : PeerRec :=
  { peerId := pid, name := nm, signalingState := st, videoSenderTrack := tr }

/-- State builder for concrete examples: a manager with both channels
subscribed, both timers running and a local camera/mic stream. -/
def mkState (pid nm : String) (peers : Registry) (ra : Nat) (ini : Bool) :
    ManagerState :=
  { participantId := pid, participantName := nm, peers := peers,
    reconnectAttempts := ra, isInitialized := ini,
    heartbeatActive := true, participantCheckActive := true,
    signalingSubscribed := true, presenceSubscribed := true,
    localStream := some { videoTracks := [1], audioTracks := [2] },
    backgroundBlurEnabled := false }

/-- Demo state: participant "a"/Alice having sent "b" an offer (glare). -/
def stateAliceGlare : ManagerState :=
  mkState "a" "Alice"
    [("b", mkPeer "b" "Bob" SignalingState.haveLocalOffer (some 1))] 0 true

/-- Demo state: participant "b"/Bob having sent "a" an offer (glare). -/
def stateBobGlare : ManagerState :=
  mkState "b" "Bob"
    [("a", mkPeer "a" "Alice" SignalingState.haveLocalOffer (some 1))] 0 true

/-- Demo state: participant "a"/Alice holding a record for "b" in
`have-local-pranswer`, outside the legal states for an incoming offer. -/
def stateAlicePranswer : ManagerState :=
  mkState "a" "Alice"
    [("b", mkPeer "b" "Bob" SignalingState.haveLocalPranswer (some 1))] 0 true

/-! ### Helper lemmas -/

theorem strLt_iff (a b : String) : strLt a b = true ↔ a < b := by
  rw [strLt, decide_eq_true_iff, String.lt_iff_toList_lt]
  exact Iff.rfl

theorem regGet_regSet_self (r : Registry) (k : String) (v : PeerRec) :
    regGet (regSet r k v) k = some v := by
  induction r with
  | nil => simp [regSet, regGet]
  | cons p ps ih =>
    by_cases h : p.1 = k
    · simp [regSet, h, regGet]
    · simp [regSet, h, regGet, ih]

theorem regHas_regSet_self (r : Registry) (k : String) (v : PeerRec) :
    regHas (regSet r k v) k = true := by
  simp [regHas, regGet_regSet_self]

theorem regHas_of_mem (r : Registry) (k : String) (w : PeerRec)
    (h : (k, w) ∈ r) : regHas r k = true := by
  induction r with
  | nil => simp at h
  | cons p ps ih =>
    rcases List.mem_cons.mp h with h1 | h1
    · simp [regHas, regGet, ← h1]
    · by_cases hk : p.1 = k
      · simp [regHas, regGet, hk]
      · simpa [regHas, regGet, hk] using ih h1

theorem replaceVideoSender_fst (t : Nat) (p : String × PeerRec) :
    (replaceVideoSender t p).1.1 = p.1 ∧
    (replaceVideoSender t p).1.2.signalingState = p.2.signalingState := by
  cases h : p.2.videoSenderTrack <;> simp [replaceVideoSender, h]

theorem replaceAll_keys_states (r : Registry) (t : Nat) :
    (replaceAllVideoSenders r t).1.map (fun p => (p.1, p.2.signalingState)) =
      r.map (fun p => (p.1, p.2.signalingState)) := by
  induction r with
  | nil => simp [replaceAllVideoSenders]
  | cons p ps ih =>
    simp only [replaceAllVideoSenders, List.map_cons] at ih ⊢
    refine congrArg₂ List.cons ?_ ih
    cases h : p.2.videoSenderTrack <;> simp [replaceVideoSender, h]

theorem replaceAll_no_send (r : Registry) (t : Nat) (m : OutMsg) :
    Effect.send m ∉ (replaceAllVideoSenders r t).2 := by
  induction r with
  | nil => simp [replaceAllVideoSenders]
  | cons p ps ih =>
    simp only [replaceAllVideoSenders, List.map_cons, List.flatten_cons,
      List.mem_append] at ih ⊢
    intro h
    rcases h with h | h
    · cases hv : p.2.videoSenderTrack <;> simp [replaceVideoSender, hv] at h
    · exact ih h

theorem replaceAll_effects_all_senders (r : Registry) (t : Nat)
    (h : ∀ p ∈ r, p.2.videoSenderTrack.isSome = true) :
    (replaceAllVideoSenders r t).2 =
      r.map (fun p => Effect.replaceVideoTrack p.1 t) := by
  induction r with
  | nil => simp [replaceAllVideoSenders]
  | cons p ps ih =>
    have hp := h p (List.mem_cons_self p ps)
    have hps : ∀ q ∈ ps, q.2.videoSenderTrack.isSome = true :=
      fun q hq => h q (List.mem_cons_of_mem p hq)
    cases hv : p.2.videoSenderTrack with
    | none => rw [hv] at hp; simp at hp
    | some w =>
      simp only [replaceAllVideoSenders, List.map_cons, List.flatten_cons] at ih ⊢
      rw [ih hps]
      simp [replaceVideoSender, hv]

theorem replaceAll_senders_present (r : Registry) (t : Nat)
    (h : ∀ p ∈ r, p.2.videoSenderTrack.isSome = true) :
    ∀ p ∈ (replaceAllVideoSenders r t).1, p.2.videoSenderTrack.isSome = true := by
  intro p hp
  simp only [replaceAllVideoSenders, List.mem_map] at hp
  obtain ⟨q, hq, hpq⟩ := hp
  have := h q hq
  cases hv : q.2.videoSenderTrack with
  | none => rw [hv] at this; simp at this
  | some w => rw [← hpq]; simp [replaceVideoSender, hv]

/-! ### Claim theorems -/

/-- C1: glare resolution is deterministic.  When both sides of a pair hold a
record for each other in the local-offer-sent state, the side whose own id is
lexicographically smaller ignores the incoming offer (state unchanged, its
own offer stays in flight) while the larger side closes its outgoing attempt
and answers the incoming offer, ending with a stable record for the smaller
peer and emitting no new offer — so exactly one connection survives, the one
offered by the smaller id, whichever message arrives first. -/
theorem C1_glare_deterministic
    (sA sB : ManagerState) (pcA pcB : PeerRec) (na nb : String)
    (hlt : sA.participantId < sB.participantId)
    (hA : regGet sA.peers sB.participantId = some pcA)
    (hAs : pcA.signalingState = SignalingState.haveLocalOffer)
    (hB : regGet sB.peers sA.participantId = some pcB)
    (hBs : pcB.signalingState = SignalingState.haveLocalOffer) :
    handleOffer sA
      { fromId := sB.participantId, toId := sA.participantId, name := nb } =
      (sA, []) ∧
    (handleOffer sB
      { fromId := sA.participantId, toId := sB.participantId, name := na }).2 =
      [Effect.closePeer sA.participantId,
       Effect.send (OutMsg.answer sB.participantId sA.participantId
         sB.participantName)] ∧
    (∃ pc, regGet (handleOffer sB
        { fromId := sA.participantId, toId := sB.participantId, name := na }).1.peers
        sA.participantId = some pc ∧
      pc.signalingState = SignalingState.stable) ∧
    (∀ x y n, Effect.send (OutMsg.offer x y n) ∉
      (handleOffer sB
        { fromId := sA.participantId, toId := sB.participantId, name := na }).2) := by
  have hstrue : strLt sA.participantId sB.participantId = true :=
    (strLt_iff _ _).mpr hlt
  have hsfalse : strLt sB.participantId sA.participantId = false := by
    rw [Bool.eq_false_iff]
    intro hc
    exact absurd ((strLt_iff _ _).mp hc) (lt_asymm hlt)
  refine ⟨?_, ?_, ?_, ?_⟩
  · simp [handleOffer, hA, hAs, hstrue]
  · simp [handleOffer, hB, hBs, hsfalse, offerViaFreshRecord,
      createPeerConnection, regGet_regSet_self, respondToOffer]
  · have hkey : regGet (handleOffer sB
        { fromId := sA.participantId, toId := sB.participantId, name := na }).1.peers
        sA.participantId =
        some ⟨sA.participantId, na, SignalingState.stable,
          match sB.localStream with
          | some ls => ls.videoTracks.head?
          | none => none⟩ := by
      simp [handleOffer, hB, hBs, hsfalse, offerViaFreshRecord,
        createPeerConnection, regGet_regSet_self, respondToOffer]
    exact ⟨_, hkey, rfl⟩
  · intro x y n
    simp [handleOffer, hB, hBs, hsfalse, offerViaFreshRecord,
      createPeerConnection, regGet_regSet_self, respondToOffer]

theorem regGet_regDelete_self (r : Registry) (k : String) :
    regGet (regDelete r k) k = none := by
  induction r with
  | nil => simp [regDelete, regGet]
  | cons p ps ih =>
    by_cases h : p.1 = k
    · simpa [regDelete, h] using ih
    · simpa [regDelete, regGet, h] using ih

theorem regHas_regDelete_self (r : Registry) (k : String) :
    regHas (regDelete r k) k = false := by
  simp [regHas, regGet_regDelete_self]

theorem replaceAll_keys (r : Registry) (t : Nat) :
    (replaceAllVideoSenders r t).1.map Prod.fst = r.map Prod.fst := by
  induction r with
  | nil => simp [replaceAllVideoSenders]
  | cons p ps ih =>
    simp only [replaceAllVideoSenders, List.map_cons] at ih ⊢
    refine congrArg₂ List.cons ?_ ih
    cases h : p.2.videoSenderTrack <;> simp [replaceVideoSender, h]

/-- Blur toggling emits no signaling message, whatever the state. -/
theorem toggleBlur_no_send (s : ManagerState) (e : Bool) (nt : Nat) (m : OutMsg) :
    Effect.send m ∉ (toggleBackgroundBlur s e nt).2 := by
  unfold toggleBackgroundBlur
  cases hls : s.localStream with
  | none => simp
  | some ls =>
    simp only
    by_cases hlen : ls.videoTracks.length > 0
    · simp only [hlen, if_true]
      cases e with
      | true =>
        unfold applyBackgroundBlur
        simp only [hls]
        cases hh : ls.videoTracks.head? with
        | none => simp
        | some cam =>
          simp only
          intro hmem
          exact replaceAll_no_send _ nt m hmem
      | false =>
        unfold removeBackgroundBlur
        simp only [hls]
        intro hmem
        rcases List.mem_append.mp hmem with h | h
        · exact replaceAll_no_send _ nt m h
        · rcases List.mem_map.mp h with ⟨tr, _, htr⟩
          exact Effect.noConfusion htr
    · simp [hlen]

/-- Blur toggling preserves every record's key and signaling state. -/
theorem toggleBlur_keys_states (s : ManagerState) (e : Bool) (nt : Nat) :
    (toggleBackgroundBlur s e nt).1.peers.map (fun p => (p.1, p.2.signalingState)) =
      s.peers.map (fun p => (p.1, p.2.signalingState)) := by
  unfold toggleBackgroundBlur
  cases hls : s.localStream with
  | none => simp
  | some ls =>
    simp only
    by_cases hlen : ls.videoTracks.length > 0
    · simp only [hlen, if_true]
      cases e with
      | true =>
        unfold applyBackgroundBlur
        simp only [hls]
        cases hh : ls.videoTracks.head? with
        | none => simp
        | some cam => simpa using replaceAll_keys_states s.peers nt
      | false =>
        unfold removeBackgroundBlur
        simp only [hls]
        simpa using replaceAll_keys_states s.peers nt
    · simp [hlen]

/-- Witness for `C1_glare_deterministic` at participants "a" and "b". -/
theorem C1_glare_deterministic_witness :
    ("a" : String) < "b" ∧
    handleOffer stateAliceGlare { fromId := "b", toId := "a", name := "Bob" } =
      (stateAliceGlare, []) ∧
    (handleOffer stateBobGlare
        { fromId := "a", toId := "b", name := "Alice" }).2 =
      [Effect.closePeer "a", Effect.send (OutMsg.answer "b" "a" "Bob")] :=
  have hlt : ("a" : String) < "b" := (strLt_iff _ _).mp (by decide)
  ⟨hlt,
   (C1_glare_deterministic stateAliceGlare stateBobGlare
      (mkPeer "b" "Bob" SignalingState.haveLocalOffer (some 1))
      (mkPeer "a" "Alice" SignalingState.haveLocalOffer (some 1))
      "Alice" "Bob" hlt rfl rfl rfl rfl).1,
   (C1_glare_deterministic stateAliceGlare stateBobGlare
      (mkPeer "b" "Bob" SignalingState.haveLocalOffer (some 1))
      (mkPeer "a" "Alice" SignalingState.haveLocalOffer (some 1))
      "Alice" "Bob" hlt rfl rfl rfl rfl).2.1⟩

/-- C2 counterexample: with a record for "b" in `have-local-pranswer` (not
`stable`, `have-remote-offer` or the glare state), an Offer from "b" to "a"
is dropped without error and with no message sent, but the record is NOT
discarded — contradicting the claim that the record is discarded in that
case. -/
theorem C2_claim_counterexample :
    handleOffer stateAlicePranswer { fromId := "b", toId := "a", name := "Bob" } =
      (stateAlicePranswer, []) ∧
    ¬ regHas (handleOffer stateAlicePranswer
        { fromId := "b", toId := "a", name := "Bob" }).1.peers "b" = false := by
  constructor
  · decide
  · decide

/-- C2 (amended): for an incoming non-glare Offer addressed to self with an
existing record, the remote description is applied (an answer is produced
and the record moves to `stable`) only when the record's state is `stable`
or `have-remote-offer`; in any other state the message is dropped as a
no-op that raises no error — but the record is RETAINED, not discarded (the
code deletes the record only when applying the description throws). -/
theorem C2_offer_state_gate
    (s : ManagerState) (m : OfferMsg) (pc : PeerRec)
    (hto : m.toId = s.participantId)
    (hrec : regGet s.peers m.fromId = some pc) :
    ((pc.signalingState = SignalingState.stable ∨
      pc.signalingState = SignalingState.haveRemoteOffer) →
      handleOffer s m =
        ({ s with peers := regSet s.peers m.fromId ({ pc with signalingState := SignalingState.stable }) },
         [Effect.send (OutMsg.answer s.participantId m.fromId s.participantName)])) ∧
    ((pc.signalingState = SignalingState.haveLocalPranswer ∨
      pc.signalingState = SignalingState.haveRemotePranswer ∨
      pc.signalingState = SignalingState.closed) →
      handleOffer s m = (s, []) ∧
      regGet (handleOffer s m).1.peers m.fromId = some pc) := by
  constructor
  · intro hst
    have hnlo : ¬ pc.signalingState = SignalingState.haveLocalOffer := by
      rcases hst with h | h <;> simp [h]
    simp [handleOffer, hto, hrec, hnlo, respondToOffer, hst]
  · intro hst
    have hnlo : ¬ pc.signalingState = SignalingState.haveLocalOffer := by
      rcases hst with h | h | h <;> simp [h]
    have hngate : ¬ (pc.signalingState = SignalingState.stable ∨
        pc.signalingState = SignalingState.haveRemoteOffer) := by
      rcases hst with h | h | h <;> simp [h]
    have hdrop : handleOffer s m = (s, []) := by
      simp [handleOffer, hto, hrec, hnlo, respondToOffer, hngate]
    exact ⟨hdrop, by rw [hdrop]; exact hrec⟩

/-- Witness for `C2_offer_state_gate`: a record for "b" in
`have-local-pranswer` survives the dropped offer. -/
theorem C2_offer_state_gate_witness :
    ({ fromId := "b", toId := "a", name := "Bob" } : OfferMsg).toId =
      stateAlicePranswer.participantId ∧
    regGet stateAlicePranswer.peers "b" =
      some (mkPeer "b" "Bob" SignalingState.haveLocalPranswer (some 1)) ∧
    handleOffer stateAlicePranswer { fromId := "b", toId := "a", name := "Bob" } =
      (stateAlicePranswer, []) :=
  ⟨rfl, rfl,
   ((C2_offer_state_gate stateAlicePranswer
      { fromId := "b", toId := "a", name := "Bob" }
      (mkPeer "b" "Bob" SignalingState.haveLocalPranswer (some 1))
      rfl rfl).2 (Or.inl rfl)).1⟩

/-- C3: on a connection failure the failed record is closed and dropped; a
retry is scheduled only while the retry counter is below the cap of 5, the
scheduled attempt N (the post-increment counter) satisfies 1 ≤ N ≤ 5 with
delay exactly N × 2000 ms (hence no earlier than N × base_delay), the
counter never exceeds 5, once the counter sits at the cap no retry is
scheduled and the peer's record is gone (permanently closed until a fresh
join recreates it), and a successful connection resets the counter to 0. -/
theorem C3_reconnect_cap (s : ManagerState) (peerId nm : String)
    (hinv : s.reconnectAttempts ≤ maxReconnectAttempts) :
    (handleConnectionFailure s peerId nm).1.reconnectAttempts ≤
      maxReconnectAttempts ∧
    (∀ pid pnm d,
      Effect.scheduleRetry pid pnm d ∈ (handleConnectionFailure s peerId nm).2 →
      pid = peerId ∧
      d = (handleConnectionFailure s peerId nm).1.reconnectAttempts * 2000 ∧
      1 ≤ (handleConnectionFailure s peerId nm).1.reconnectAttempts ∧
      (handleConnectionFailure s peerId nm).1.reconnectAttempts ≤
        maxReconnectAttempts) ∧
    (s.reconnectAttempts = maxReconnectAttempts →
      (∀ pid pnm d,
        Effect.scheduleRetry pid pnm d ∉ (handleConnectionFailure s peerId nm).2) ∧
      regHas (handleConnectionFailure s peerId nm).1.peers peerId = false) ∧
    (handleConnected s).reconnectAttempts = 0 := by
  have hmax : maxReconnectAttempts = 5 := rfl
  by_cases hlt : s.reconnectAttempts < maxReconnectAttempts
  · cases hg : regGet s.peers peerId with
    | some pc =>
      have heq : handleConnectionFailure s peerId nm =
          ({ s with
              peers := regDelete s.peers peerId,
              reconnectAttempts := s.reconnectAttempts + 1 },
           [Effect.closePeer peerId, Effect.notifyPeerLeft peerId,
            Effect.scheduleRetry peerId nm (2000 * (s.reconnectAttempts + 1))]) := by
        unfold handleConnectionFailure
        rw [hg]
        simp [hlt]
      rw [heq]
      refine ⟨by simpa using hlt, ?_, ?_, rfl⟩
      · intro pid pnm d hmem
        simp only [List.mem_cons, List.not_mem_nil, or_false] at hmem
        rcases hmem with h | h | h
        · exact Effect.noConfusion h
        · exact Effect.noConfusion h
        · injection h with h1 h2 h3
          refine ⟨h1, ?_, by simp, by simpa using hlt⟩
          rw [h3]
          simp [Nat.mul_comm]
      · intro hcap
        rw [hcap] at hlt
        exact absurd hlt (lt_irrefl _)
    | none =>
      have heq : handleConnectionFailure s peerId nm =
          ({ s with reconnectAttempts := s.reconnectAttempts + 1 },
           [Effect.scheduleRetry peerId nm (2000 * (s.reconnectAttempts + 1))]) := by
        unfold handleConnectionFailure
        rw [hg]
        simp [hlt]
      rw [heq]
      refine ⟨by simpa using hlt, ?_, ?_, rfl⟩
      · intro pid pnm d hmem
        simp only [List.mem_singleton] at hmem
        injection hmem with h1 h2 h3
        refine ⟨h1, ?_, by simp, by simpa using hlt⟩
        rw [h3]
        simp [Nat.mul_comm]
      · intro hcap
        rw [hcap] at hlt
        exact absurd hlt (lt_irrefl _)
  · cases hg : regGet s.peers peerId with
    | some pc =>
      have heq : handleConnectionFailure s peerId nm =
          ({ s with peers := regDelete s.peers peerId },
           [Effect.closePeer peerId, Effect.notifyPeerLeft peerId]) := by
        unfold handleConnectionFailure
        rw [hg]
        simp [hlt]
      rw [heq]
      refine ⟨hinv, ?_, ?_, rfl⟩
      · intro pid pnm d hmem
        simp only [List.mem_cons, List.not_mem_nil, or_false] at hmem
        rcases hmem with h | h
        · exact Effect.noConfusion h
        · exact Effect.noConfusion h
      · intro hcap
        refine ⟨?_, regHas_regDelete_self _ _⟩
        intro pid pnm d hmem
        simp only [List.mem_cons, List.not_mem_nil, or_false] at hmem
        rcases hmem with h | h
        · exact Effect.noConfusion h
        · exact Effect.noConfusion h
    | none =>
      have heq : handleConnectionFailure s peerId nm = (s, []) := by
        unfold handleConnectionFailure
        rw [hg]
        simp [hlt]
      rw [heq]
      refine ⟨hinv, ?_, ?_, rfl⟩
      · intro pid pnm d hmem
        exact absurd hmem (List.not_mem_nil _)
      · intro hcap
        exact ⟨fun pid pnm d hmem => absurd hmem (List.not_mem_nil _),
          by simp [regHas, hg]⟩

/-- Witness for `C3_reconnect_cap`: first failure for "b" at counter 0. -/
theorem C3_reconnect_cap_witness :
    stateAliceGlare.reconnectAttempts ≤ maxReconnectAttempts ∧
    (handleConnectionFailure stateAliceGlare "b" "Bob").1.reconnectAttempts ≤
      maxReconnectAttempts ∧
    (handleConnected stateAliceGlare).reconnectAttempts = 0 :=
  ⟨by decide,
   (C3_reconnect_cap stateAliceGlare "b" "Bob" (by decide)).1,
   (C3_reconnect_cap stateAliceGlare "b" "Bob" (by decide)).2.2.2⟩

/-- C4: every Offer, Answer or IceCandidate whose addressee differs from the
local participant id is discarded unprocessed — the handler returns with the
state unchanged (no record read, created, mutated or deleted) and sends no
message. -/
theorem C4_addressee_filter
    (s : ManagerState) (mo : OfferMsg) (ma : AnswerMsg) (mi : IceMsg)
    (ho : ¬ mo.toId = s.participantId)
    (ha : ¬ ma.toId = s.participantId)
    (hi : ¬ mi.toId = s.participantId) :
    handleOffer s mo = (s, []) ∧
    handleAnswer s ma = (s, []) ∧
    handleIceCandidate s mi = (s, []) := by
  refine ⟨?_, ?_, ?_⟩
  · simp [handleOffer, ho]
  · simp [handleAnswer, ha]
  · simp [handleIceCandidate, hi]

/-- Witness for `C4_addressee_filter`: messages addressed to "c" reaching
participant "a". -/
theorem C4_addressee_filter_witness :
    ¬ ({ fromId := "b", toId := "c", name := "Bob" } : OfferMsg).toId =
      stateAliceGlare.participantId ∧
    handleOffer stateAliceGlare { fromId := "b", toId := "c", name := "Bob" } =
      (stateAliceGlare, []) ∧
    handleAnswer stateAliceGlare { fromId := "b", toId := "c", name := "Bob" } =
      (stateAliceGlare, []) ∧
    handleIceCandidate stateAliceGlare { fromId := "b", toId := "c" } =
      (stateAliceGlare, []) :=
  have h := C4_addressee_filter stateAliceGlare
    { fromId := "b", toId := "c", name := "Bob" }
    { fromId := "b", toId := "c", name := "Bob" }
    { fromId := "b", toId := "c" }
    (by decide) (by decide) (by decide)
  ⟨by decide, h.1, h.2.1, h.2.2⟩

/-- C5: with every attached connection holding a video sender and a live
local camera stream, starting screen share performs exactly one in-place
track substitution per peer and stopping it another one per peer (two in
total per peer), both phases preserve every record's key and signaling
state (no record created or deleted, no negotiation-state change), and —
like enabling or disabling background blur, which also only substitutes
tracks — they send zero signaling messages. -/
theorem C5_track_substitution (s : ManagerState) (t nt : Nat) (e : Bool)
    (ls : MediaStreamM) (cam : Nat)
    (hsend : ∀ p ∈ s.peers, p.2.videoSenderTrack.isSome = true)
    (hls : s.localStream = some ls)
    (hcam : ls.videoTracks.head? = some cam) :
    (startScreenShare s t).2 =
      s.peers.map (fun p => Effect.replaceVideoTrack p.1 t) ∧
    (startScreenShare s t).1.peers.map (fun p => (p.1, p.2.signalingState)) =
      s.peers.map (fun p => (p.1, p.2.signalingState)) ∧
    (screenShareEnded (startScreenShare s t).1).2 =
      s.peers.map (fun p => Effect.replaceVideoTrack p.1 cam) ∧
    (screenShareEnded (startScreenShare s t).1).1.peers.map
        (fun p => (p.1, p.2.signalingState)) =
      s.peers.map (fun p => (p.1, p.2.signalingState)) ∧
    (∀ m, Effect.send m ∉ (startScreenShare s t).2) ∧
    (∀ m, Effect.send m ∉ (screenShareEnded (startScreenShare s t).1).2) ∧
    (∀ m, Effect.send m ∉ (toggleBackgroundBlur s e nt).2) ∧
    (toggleBackgroundBlur s e nt).1.peers.map
        (fun p => (p.1, p.2.signalingState)) =
      s.peers.map (fun p => (p.1, p.2.signalingState)) := by
  have hstart : startScreenShare s t =
      ({ s with peers := (replaceAllVideoSenders s.peers t).1 },
       (replaceAllVideoSenders s.peers t).2) := rfl
  have hstream1 : (startScreenShare s t).1.localStream = some ls := by
    rw [hstart]
    exact hls
  have hpeers1 : (startScreenShare s t).1.peers =
      (replaceAllVideoSenders s.peers t).1 := by
    rw [hstart]
  have hsend1 : ∀ p ∈ (startScreenShare s t).1.peers,
      p.2.videoSenderTrack.isSome = true := by
    rw [hpeers1]
    exact replaceAll_senders_present s.peers t hsend
  have hended : screenShareEnded (startScreenShare s t).1 =
      ({ (startScreenShare s t).1 with
          peers := (replaceAllVideoSenders (startScreenShare s t).1.peers cam).1 },
       (replaceAllVideoSenders (startScreenShare s t).1.peers cam).2) := by
    unfold screenShareEnded
    simp only [hstream1, hcam]
  have hkeys1 : (startScreenShare s t).1.peers.map Prod.fst = s.peers.map Prod.fst := by
    rw [hpeers1]
    exact replaceAll_keys s.peers t
  refine ⟨?_, ?_, ?_, ?_, ?_, ?_, ?_, ?_⟩
  · rw [hstart]
    exact replaceAll_effects_all_senders s.peers t hsend
  · rw [hstart]
    exact replaceAll_keys_states s.peers t
  · rw [hended]
    have h1 : (replaceAllVideoSenders (startScreenShare s t).1.peers cam).2 =
        (startScreenShare s t).1.peers.map (fun p => Effect.replaceVideoTrack p.1 cam) :=
      replaceAll_effects_all_senders _ cam hsend1
    rw [h1]
    calc (startScreenShare s t).1.peers.map (fun p => Effect.replaceVideoTrack p.1 cam)
        = ((startScreenShare s t).1.peers.map Prod.fst).map
            (fun k => Effect.replaceVideoTrack k cam) := by
          rw [List.map_map]
          rfl
      _ = (s.peers.map Prod.fst).map (fun k => Effect.replaceVideoTrack k cam) := by
          rw [hkeys1]
      _ = s.peers.map (fun p => Effect.replaceVideoTrack p.1 cam) := by
          rw [List.map_map]
          rfl
  · rw [hended]
    simp only
    rw [replaceAll_keys_states, hpeers1, replaceAll_keys_states]
  · rw [hstart]
    intro m
    exact replaceAll_no_send s.peers t m
  · rw [hended]
    intro m
    exact replaceAll_no_send _ cam m
  · intro m
    exact toggleBlur_no_send s e nt m
  · exact toggleBlur_keys_states s e nt

/-- Witness for `C5_track_substitution`: screen track 9 and blur track 7 on
Alice's single-peer state. -/
theorem C5_track_substitution_witness :
    (∀ p ∈ stateAliceGlare.peers, p.2.videoSenderTrack.isSome = true) ∧
    stateAliceGlare.localStream = some { videoTracks := [1], audioTracks := [2] } ∧
    (startScreenShare stateAliceGlare 9).2 = [Effect.replaceVideoTrack "b" 9] ∧
    (screenShareEnded (startScreenShare stateAliceGlare 9).1).2 =
      [Effect.replaceVideoTrack "b" 1] :=
  have h := C5_track_substitution stateAliceGlare 9 7 true
    { videoTracks := [1], audioTracks := [2] } 1
    (by decide) rfl rfl
  ⟨by decide, rfl, h.1, h.2.2.1⟩

/-- C6: `leaveMeeting` closes every record, clears the registry, cancels
both timers, untracks presence, broadcasts the leave notice, and
unsubscribes both channels; every step is total, and a second invocation
reproduces the same final state (the operation is safe to repeat). -/
theorem C6_leave_idempotent (s : ManagerState) :
    (∀ p ∈ s.peers, Effect.closePeer p.1 ∈ (leaveMeeting s).2) ∧
    (leaveMeeting s).1.peers = [] ∧
    (leaveMeeting s).1.heartbeatActive = false ∧
    (leaveMeeting s).1.participantCheckActive = false ∧
    Effect.send (OutMsg.userLeft s.participantId) ∈ (leaveMeeting s).2 ∧
    Effect.untrackPresence ∈ (leaveMeeting s).2 ∧
    Effect.unsubscribeSignaling ∈ (leaveMeeting s).2 ∧
    Effect.unsubscribePresence ∈ (leaveMeeting s).2 ∧
    (leaveMeeting s).1.signalingSubscribed = false ∧
    (leaveMeeting s).1.presenceSubscribed = false ∧
    (leaveMeeting (leaveMeeting s).1).1 = (leaveMeeting s).1 := by
  refine ⟨?_, rfl, rfl, rfl, ?_, ?_, ?_, ?_, rfl, rfl, rfl⟩
  · intro p hp
    unfold leaveMeeting
    have hmem : Effect.closePeer p.1 ∈ s.peers.map (fun q => Effect.closePeer q.1) :=
      List.mem_map.mpr ⟨p, hp, rfl⟩
    simp only [List.mem_append]
    tauto
  · unfold leaveMeeting
    simp
  · unfold leaveMeeting
    simp
  · unfold leaveMeeting
    simp
  · unfold leaveMeeting
    simp

/-- Witness for `C6_leave_idempotent` at Alice's one-peer state. -/
theorem C6_leave_idempotent_witness :
    ("b", mkPeer "b" "Bob" SignalingState.haveLocalOffer (some 1)) ∈
      stateAliceGlare.peers ∧
    Effect.closePeer "b" ∈ (leaveMeeting stateAliceGlare).2 ∧
    (leaveMeeting stateAliceGlare).1.peers = [] ∧
    (leaveMeeting (leaveMeeting stateAliceGlare).1).1 =
      (leaveMeeting stateAliceGlare).1 :=
  have h := C6_leave_idempotent stateAliceGlare
  ⟨by decide,
   h.1 ("b", mkPeer "b" "Bob" SignalingState.haveLocalOffer (some 1)) (by decide),
   h.2.1, h.2.2.2.2.2.2.2.2.2.2⟩

/-- A join for an already-known peer is a no-op (the membership check). -/
theorem handleUserJoined_known (s : ManagerState) (pid nm : String)
    (h : regHas s.peers pid = true) : handleUserJoined s pid nm = (s, []) := by
  unfold handleUserJoined
  by_cases hself : pid = s.participantId <;> simp [hself, h]

/-- C7: a join event for a peer already present in the registry is a no-op
on every discovery path (push `user-joined`, roster poll, presence sync):
the state is returned unchanged with no effects; consequently two joins for
the same (non-self) peer in quick succession leave the second one a no-op. -/
theorem C7_join_idempotent (s : ManagerState) (pid nm nm2 : String)
    (h : regHas s.peers pid = true) :
    handleUserJoined s pid nm = (s, []) ∧
    checkForNewParticipants s [{ id := pid, name := nm }] = (s, []) ∧
    handlePresenceSync s [{ participantId := pid, name := nm }] = (s, []) ∧
    (∀ s2 : ManagerState, ¬ pid = s2.participantId →
      handleUserJoined (handleUserJoined s2 pid nm).1 pid nm2 =
        ((handleUserJoined s2 pid nm).1, [])) := by
  refine ⟨handleUserJoined_known s pid nm h, ?_, ?_, ?_⟩
  · unfold checkForNewParticipants
    simp [h]
  · unfold handlePresenceSync
    simp [h]
  · intro s2 hself
    by_cases h2 : regHas s2.peers pid = true
    · have h1 : handleUserJoined s2 pid nm = (s2, []) :=
        handleUserJoined_known s2 pid nm h2
      rw [h1]
      exact handleUserJoined_known s2 pid nm2 h2
    · have h1 : handleUserJoined s2 pid nm =
          createPeerConnection s2 pid nm true := by
        unfold handleUserJoined
        simp [hself, h2]
      have h3 : regHas (handleUserJoined s2 pid nm).1.peers pid = true := by
        rw [h1]
        unfold createPeerConnection
        simpa using regHas_regSet_self s2.peers pid _
      exact handleUserJoined_known _ pid nm2 h3

/-- Witness for `C7_join_idempotent`: "b" is already known to Alice. -/
theorem C7_join_idempotent_witness :
    regHas stateAliceGlare.peers "b" = true ∧
    handleUserJoined stateAliceGlare "b" "Bob" = (stateAliceGlare, []) ∧
    checkForNewParticipants stateAliceGlare [{ id := "b", name := "Bob" }] =
      (stateAliceGlare, []) ∧
    handlePresenceSync stateAliceGlare [{ participantId := "b", name := "Bob" }] =
      (stateAliceGlare, []) :=
  have h := C7_join_idempotent stateAliceGlare "b" "Bob" "Bobby" (by decide)
  ⟨by decide, h.1, h.2.1, h.2.2.1⟩

/-- The stats fold accumulates exactly the successful queries, in registry
order. -/
theorem getStats_foldl (q : String → Option Nat) (l : Registry)
    (acc : List (String × Nat)) :
    l.foldl
      (fun acc p =>
        match q p.1 with
        | some report => acc ++ [(p.1, report)]
        | none => acc) acc =
      acc ++ l.filterMap (fun p => (q p.1).map (fun v => (p.1, v))) := by
  induction l generalizing acc with
  | nil => simp
  | cons p ps ih =>
    simp only [List.foldl_cons, List.filterMap_cons]
    cases hq : q p.1 with
    | none => simp [hq, ih]
    | some v => simp [hq, ih, List.append_assoc]

/-- C8: `getConnectionStats` returns exactly one entry per registry record
whose stats query succeeds; a failing peer is simply omitted while every
succeeding peer keeps its entry, and every returned entry comes from a live
record with a successful query — one peer's failure never aborts the batch
or removes entries for other peers. -/
theorem C8_stats_isolation (s : ManagerState) (q : String → Option Nat) :
    getConnectionStats s q =
      s.peers.filterMap (fun p => (q p.1).map (fun v => (p.1, v))) ∧
    (∀ p ∈ s.peers, ∀ v, q p.1 = some v → (p.1, v) ∈ getConnectionStats s q) ∧
    (∀ pid v, (pid, v) ∈ getConnectionStats s q →
      q pid = some v ∧ regHas s.peers pid = true) := by
  have hmain : getConnectionStats s q =
      s.peers.filterMap (fun p => (q p.1).map (fun v => (p.1, v))) := by
    unfold getConnectionStats
    simpa using getStats_foldl q s.peers []
  refine ⟨hmain, ?_, ?_⟩
  · intro p hp v hv
    rw [hmain]
    exact List.mem_filterMap.mpr ⟨p, hp, by simp [hv]⟩
  · intro pid v hmem
    rw [hmain] at hmem
    obtain ⟨p, hp, hf⟩ := List.mem_filterMap.mp hmem
    cases hq : q p.1 with
    | none =>
      rw [hq] at hf
      simp at hf
    | some w =>
      rw [hq] at hf
      simp only [Option.map_some'] at hf
      injection hf with hf1
      have h1 : p.1 = pid := congrArg Prod.fst hf1
      have h2 : w = v := congrArg Prod.snd hf1
      refine ⟨by rw [← h1, hq, h2], ?_⟩
      refine regHas_of_mem s.peers pid p.2 ?_
      rw [← h1]
      exact hp

/-- Witness for `C8_stats_isolation`: "b" fails, "c" succeeds with 7 —
"c" survives the batch. -/
theorem C8_stats_isolation_witness :
    ("c", mkPeer "c" "Cleo" SignalingState.stable (some 1)) ∈
      (mkState "a" "Alice"
        [("b", mkPeer "b" "Bob" SignalingState.stable (some 1)),
         ("c", mkPeer "c" "Cleo" SignalingState.stable (some 1))] 0 true).peers ∧
    (fun pid => if pid = "b" then (none : Option Nat) else some 7) "c" = some 7 ∧
    ("c", 7) ∈ getConnectionStats
      (mkState "a" "Alice"
        [("b", mkPeer "b" "Bob" SignalingState.stable (some 1)),
         ("c", mkPeer "c" "Cleo" SignalingState.stable (some 1))] 0 true)
      (fun pid => if pid = "b" then (none : Option Nat) else some 7) :=
  have h := C8_stats_isolation
    (mkState "a" "Alice"
      [("b", mkPeer "b" "Bob" SignalingState.stable (some 1)),
       ("c", mkPeer "c" "Cleo" SignalingState.stable (some 1))] 0 true)
    (fun pid => if pid = "b" then (none : Option Nat) else some 7)
  ⟨by decide, by decide,
   h.2.1 ("c", mkPeer "c" "Cleo" SignalingState.stable (some 1)) (by decide) 7
     (by decide)⟩

/-- Every roster row carrying the local display name is skipped by the
poll, whatever its id. -/
theorem checkForNew_all_self_name (s : ManagerState) (roster : List RosterEntry)
    (h : ∀ e ∈ roster, e.name = s.participantName) :
    checkForNewParticipants s roster = (s, []) := by
  unfold checkForNewParticipants
  induction roster with
  | nil => rfl
  | cons e es ih =>
    have he : e.name = s.participantName := h e (List.mem_cons_self e es)
    have hes : ∀ x ∈ es, x.name = s.participantName :=
      fun x hx => h x (List.mem_cons_of_mem e hx)
    simp only [List.foldl_cons]
    rw [if_neg (fun hc => hc.1 he)]
    exact ih hes

/-- C9: the roster poll excludes the local participant by display NAME —
a roster entry whose name equals the local display name raises no join,
even when its id differs from the local id (the peer is never discovered by
the poll path) — whereas the presence-sync path filters by participant id,
so the same entry (distinct id, same display name, unknown peer) does raise
a join there, creating the record and sending an offer. -/
theorem C9_poll_name_filter (s : ManagerState) (pid : String)
    (hne : ¬ pid = s.participantId) :
    checkForNewParticipants s [{ id := pid, name := s.participantName }] =
      (s, []) ∧
    (∀ roster : List RosterEntry, (∀ e ∈ roster, e.name = s.participantName) →
      checkForNewParticipants s roster = (s, [])) ∧
    (regHas s.peers pid = false →
      (handlePresenceSync s
          [{ participantId := pid, name := s.participantName }]).2 =
        [Effect.send (OutMsg.offer s.participantId pid s.participantName)] ∧
      regHas (handlePresenceSync s
          [{ participantId := pid, name := s.participantName }]).1.peers pid =
        true) := by
  refine ⟨?_, ?_, ?_⟩
  · refine checkForNew_all_self_name s _ ?_
    intro e he
    rw [List.mem_singleton] at he
    rw [he]
  · intro roster hr
    exact checkForNew_all_self_name s roster hr
  · intro hr
    have hj : handleUserJoined s pid s.participantName =
        createPeerConnection s pid s.participantName true := by
      unfold handleUserJoined
      simp [hne, hr]
    have hsync : handlePresenceSync s
        [{ participantId := pid, name := s.participantName }] =
        (let r := handleUserJoined s pid s.participantName
         (r.1, r.2)) := by
      unfold handlePresenceSync
      simp only [List.foldl_cons, List.foldl_nil]
      rw [if_pos ⟨hne, by simp [hr]⟩]
      simp
    rw [hsync, hj]
    unfold createPeerConnection
    constructor
    · simp
    · simpa using regHas_regSet_self s.peers pid _

/-- Witness for `C9_poll_name_filter`: peer "x" shares Alice's display name;
the poll never discovers it, the sync path does. -/
theorem C9_poll_name_filter_witness :
    ¬ ("x" : String) = stateAliceGlare.participantId ∧
    checkForNewParticipants stateAliceGlare
        [{ id := "x", name := "Alice" }] = (stateAliceGlare, []) ∧
    regHas stateAliceGlare.peers "x" = false ∧
    (handlePresenceSync stateAliceGlare
        [{ participantId := "x", name := "Alice" }]).2 =
      [Effect.send (OutMsg.offer "a" "x" "Alice")] :=
  have h := C9_poll_name_filter stateAliceGlare "x" (by decide)
  ⟨by decide, h.1, by decide, (h.2.2 (by decide)).1⟩

/-- C10: `joinMeeting` is a one-shot guarded by `isInitialized`: any call
with the flag set returns immediately with no presence tracking and no
join broadcast, the first call sets the flag, no operation (in particular
`leaveMeeting`) resets it, and therefore join-after-leave on the same
manager performs no announcement. -/
theorem C10_join_oneshot (s : ManagerState) (h : s.isInitialized = true) :
    joinMeeting s = (s, []) ∧
    (∀ s2 : ManagerState, (joinMeeting s2).1.isInitialized = true) ∧
    (∀ s2 : ManagerState, (leaveMeeting s2).1.isInitialized = s2.isInitialized) ∧
    joinMeeting (leaveMeeting s).1 = ((leaveMeeting s).1, []) := by
  refine ⟨?_, ?_, ?_, ?_⟩
  · unfold joinMeeting
    simp [h]
  · intro s2
    unfold joinMeeting
    by_cases h2 : s2.isInitialized = true <;> simp [h2]
  · intro s2
    rfl
  · have hl : (leaveMeeting s).1.isInitialized = true := h
    unfold joinMeeting
    simp [hl]

/-- Witness for `C10_join_oneshot` on Alice's initialized state. -/
theorem C10_join_oneshot_witness :
    stateAliceGlare.isInitialized = true ∧
    joinMeeting stateAliceGlare = (stateAliceGlare, []) ∧
    joinMeeting (leaveMeeting stateAliceGlare).1 =
      ((leaveMeeting stateAliceGlare).1, []) :=
  have h := C10_join_oneshot stateAliceGlare (by decide)
  ⟨by decide, h.1, h.2.2.2⟩
